import Mathlib

/-!
Verification of the `mcp-api-experiment` skill framework.

This file shallowly embeds the parts of the repository that the claims
touch:

* `src/src/mcp_skill_framework/executor.py` — the execution-harness
  wrapper built by `CodeExecutor._create_wrapper`, and the result parser
  `CodeExecutor._parse_result`;
* `src/src/mcp_skill_framework/runtime.py` — the result-shape
  normalization in `MCPRuntime._async_call`;
* `src/src/mcp_skill_framework/skill_manager.py` — dependency
  extraction, docstring extraction, the filesystem materialization and
  hydration;
* `src/src/database.py` — the `SkillsDatabase` upsert/read operations.

Python dictionaries, JSON columns and filesystem trees are modelled as
association lists; wall-clock timestamps are threaded as explicit
parameters.  Submitted agent code is modelled by a micro-language of
assignment statements (one statement per source line), which suffices
for the concrete programs the claims mention and lets the harness logic
be stated for arbitrary execution outcomes.
-/

/-- JSON values, as produced by Python `json.loads` and consumed by
`json.dumps`.  Numbers are restricted to integers, which covers every
JSON payload appearing in the claims. -/
inductive JVal where
  | null
  | bool (b : Bool)
  | num (n : Int)
  | str (s : String)
  | arr (xs : List JVal)
  | obj (kvs : List (String × JVal))

/-- Python truthiness of a JSON-representable value: `None`, `False`,
`0`, `""`, `[]` and `\x7b\x7d` are falsy, everything else truthy. -/
def JVal.truthy : JVal → Bool
  | .null => false
  | .bool b => b
  | .num n => n != 0
  | .str s => s != ""
  | .arr xs => !xs.isEmpty
  | .obj kvs => !kvs.isEmpty

/-- Lookup in a Python-dict model (association list, unique keys). -/
def lookupDict (kvs : List (String × JVal)) (k : String) : Option JVal :=
  (kvs.find? (fun kv => kv.1 == k)).map (·.2)

/-- Merge of two Python dicts as in a literal `\x7ba..., **b\x7d`: the
keys of `a` in order, values overridden by `b` where present, followed
by the keys of `b` that are new, in their order. -/
def mergeDict (a b : List (String × JVal)) : List (String × JVal) :=
  (a.map (fun kv => (kv.1, (lookupDict b kv.1).getD kv.2)))
    ++ b.filter (fun kv => (lookupDict a kv.1).isNone)

/-! ## Micro-Python: values, expressions, statements

The executor runs an arbitrary submitted Python string.  The claims
exercise only simple straight-line programs, so the submitted code is
modelled as a list of assignment statements, statement `i` (0-based)
sitting on line `i + 1` (1-based) of the submitted string. -/

/-- Runtime values of the micro-language. -/
inductive PyVal where
  | none
  | int (n : Int)
  | str (s : String)
deriving DecidableEq

/-- Expressions: literals, variables, `+` and `/`. -/
inductive PyExpr where
  | lit (n : Int)
  | noneLit
  | strLit (s : String)
  | var (x : String)
  | add (a b : PyExpr)
  | div (a b : PyExpr)
deriving DecidableEq

/-- A statement of the micro-language: `x = e`. -/
inductive PyStmt where
  | assign (x : String) (e : PyExpr)
deriving DecidableEq

/-- A submitted program; statement `i` occupies line `i + 1` of the
submitted code string. -/
abbrev PyProgram := List PyStmt

/-- The execution namespace produced by `exec` (user bindings only;
the harness seeds `__name__`/`__builtins__`, which never collide with
the names the result lookup inspects). -/
abbrev PyNamespace := List (String × PyVal)

/-- Dict read: first binding for `x`, if any. -/
def nsGet (ns : PyNamespace) (x : String) : Option PyVal :=
  (ns.find? (fun kv => kv.1 == x)).map (·.2)

/-- Dict write: replace the binding for `x` in place, else append. -/
def nsSet (ns : PyNamespace) (x : String) (v : PyVal) : PyNamespace :=
  if (ns.find? (fun kv => kv.1 == x)).isSome then
    ns.map (fun kv => if kv.1 == x then (x, v) else kv)
  else
    ns ++ [(x, v)]

/-- An exception escaping the submitted body: Python type name,
message, and the 1-based line of the submitted code string that raised. -/
structure PyExc where
  type : String
  message : String
  userLine : Nat
deriving DecidableEq

/-- Expression evaluation.  `+` is defined on two ints or two strings
(otherwise `TypeError`); `/` raises `ZeroDivisionError` on a zero
denominator and otherwise yields the integer quotient (the claims only
ever divide by zero, so the float result of Python true division is
not needed). -/
def evalExpr (ns : PyNamespace) : PyExpr → Except (String × String) PyVal
  | .lit n => .ok (.int n)
  | .noneLit => .ok .none
  | .strLit s => .ok (.str s)
  | .var x =>
    match nsGet ns x with
    | some v => .ok v
    | none => .error ("NameError", "name " ++ x ++ " is not defined")
  | .add a b => do
    let va ← evalExpr ns a
    let vb ← evalExpr ns b
    match va, vb with
    | .int m, .int n => .ok (.int (m + n))
    | .str s, .str t => .ok (.str (s ++ t))
    | _, _ => .error ("TypeError", "unsupported operand type(s) for +")
  | .div a b => do
    let va ← evalExpr ns a
    let vb ← evalExpr ns b
    match va, vb with
    | .int m, .int n =>
      if n = 0 then .error ("ZeroDivisionError", "division by zero")
      else .ok (.int (m / n))
    | _, _ => .error ("TypeError", "unsupported operand type(s) for /")

/-- Run the statements from line `line` onwards. -/
def runStmts (ns : PyNamespace) (line : Nat) :
    PyProgram → Except PyExc PyNamespace
  | [] => .ok ns
  | .assign x e :: rest =>
    match evalExpr ns e with
    | .ok v => runStmts (nsSet ns x v) (line + 1) rest
    | .error (t, m) => .error ⟨t, m, line⟩

/-- Execute a submitted program in a fresh namespace, as
`exec(compile(...), exec_namespace)` does; an escaping exception is
reported with the 1-based line of the submitted string. -/
def runProgram (p : PyProgram) : Except PyExc PyNamespace :=
  runStmts [] 1 p

/-! ## The execution-harness wrapper (`CodeExecutor._create_wrapper`)

The wrapper (executor.py lines 324-451) executes the submitted code,
then locates a result value: `exec_namespace.get('__result__')`, and if
that is `None` — whether the sentinel is unbound or bound to `None` —
the value of the first *bound* name among `result`, `output`,
`answer`, `data`.  On an exception it walks the traceback for the first
frame whose filename is the synthetic tag `<agent_code>` and records
that frame's line number.  The compiled source is the literal
`'\n' + code + '\n'`, so line `L` of the submitted string is line
`L + 1` of `<agent_code>`; `linecache` has no source for the synthetic
file, so the recorded `code_context` is the empty string. -/

/-- The `ErrorDetail` object built by the wrapper (and by the result
parser's synthesized reports, where `line_number`/`code_context` are
null). -/
structure ErrorDetail where
  type : String
  message : String
  line_number : Option Nat
  code_context : Option String
deriving DecidableEq

/-- The execution report assembled by the wrapper.  `stdout`/`stderr`
are the captured buffers (always empty for the printless
micro-language); `execution_time_ms` is wall-clock time and is not
modelled. -/
structure ExecReport where
  success : Bool
  return_value : PyVal
  stdout : String
  stderr : String
  error : Option ErrorDetail
  exit_code : Nat
deriving DecidableEq

/-- The conventional result-variable names, in the order the wrapper
checks them. -/
def resultVarNames : List String := ["result", "output", "answer", "data"]

/-- Result-value lookup of the wrapper (executor.py lines 387-397):
`__result__` when it is bound to a non-`None` value, else the value of
the first bound name among `resultVarNames`, else `None`. -/
def harnessReturnValue (ns : PyNamespace) : PyVal :=
  let rv := (nsGet ns "__result__").getD .none
  if rv = .none then
    match resultVarNames.findSome? (nsGet ns) with
    | some v => v
    | none => .none
  else rv

/-- The report built by the harness wrapper for one submitted program
(executor.py lines 367-450). -/
def runWrapper (p : PyProgram) : ExecReport :=
  match runProgram p with
  | .ok ns =>
    { success := true
      return_value := harnessReturnValue ns
      stdout := ""
      stderr := ""
      error := Option.none
      exit_code := 0 }
  | .error e =>
    { success := false
      return_value := .none
      stdout := ""
      stderr := ""
      error := some
        { type := e.type
          message := e.message
          line_number := some (e.userLine + 1)
          code_context := some "" }
      exit_code := 1 }

/-! ## Routing runtime result normalization (`MCPRuntime._async_call`)

runtime.py lines 130-145: after `session.call_tool` returns, the raw
protocol result is normalized.  A raw result may carry a `content`
attribute (absent attribute modelled as `Option.none`); a present
content value is either a list of typed content items or some other
(scalar) value with its own truthiness. -/

/-- A typed content item of a raw protocol result: either it has a
`.text` attribute carrying a textual payload, or it does not (`other`,
identified by a tag so distinct items can be told apart). -/
inductive ContentItem where
  | textual (text : String)
  | other (tag : Nat)
deriving DecidableEq

/-- The value of a raw result's `content` attribute. -/
inductive RawContent where
  | list (items : List ContentItem)
  | scalar (truthy : Bool) (tag : Nat)
deriving DecidableEq

/-- A raw remote-call result: optional `content` attribute plus a tag
identifying the object itself. -/
structure RawResult where
  content : Option RawContent
  tag : Nat
deriving DecidableEq

/-- Python truthiness of a content value: a list is truthy iff
non-empty; a scalar carries its truthiness. -/
def RawContent.isTruthy : RawContent → Bool
  | .list items => !items.isEmpty
  | .scalar t _ => t

/-- What `_async_call` returns to the caller after normalization. -/
inductive CallOutcome where
  | text (t : String)
  | item (it : ContentItem)
  | contentVal (c : RawContent)
  | raw (r : RawResult)
deriving DecidableEq

/-- Result-shape normalization of `MCPRuntime._async_call`
(runtime.py lines 134-145): if the result has a truthy `content` that
is a non-empty list, return the first item's `.text` when it has one,
else the first item; a truthy non-list `content` is returned itself;
otherwise the raw result is returned unchanged. -/
def normalizeResult (r : RawResult) : CallOutcome :=
  match r.content with
  | some c =>
    if c.isTruthy then
      match c with
      | .list (first :: _) =>
        match first with
        | .textual t => .text t
        | it => .item it
      | .list [] => .raw r
      | .scalar tr tag => .contentVal (.scalar tr tag)
    else .raw r
  | none => .raw r

/-! ## Dependency extraction (`SkillManager._extract_dependencies`)

skill_manager.py lines 422-455: a lexical scan of the code string for
the regex `mcp_call\s*\(\s*["~]([^"~]+)["~]\s*,\s*["~]([^"~]+)["~]`
(written here with `~` standing for the single-quote character), via
`re.finditer` (leftmost, non-overlapping matches), followed by a
first-seen-order deduplication through a `seen` set.  The pattern is
deterministic (each greedy sub-scan is cut off by a character that the
class excludes), so it is embedded as a direct matcher. -/

/-- The single-quote character. -/
def squote : Char := Char.ofNat 39

/-- Is `c` one of the two quote characters the pattern accepts? -/
def isQuoteChar (c : Char) : Bool := c == '"' || c == squote

/-- Python regex `\s` on ASCII input: space, tab, LF, CR, FF, VT. -/
def isPyWs (c : Char) : Bool :=
  c == ' ' || c == '\t' || c == '\n' || c == '\x0d' || c == '\x0c' || c == '\x0b'

/-- Drop the whitespace prefix (the greedy `\s*`). -/
def dropWs : List Char → List Char
  | c :: cs => if isPyWs c then dropWs cs else c :: cs
  | [] => []

/-- Match a literal character sequence at the head of the input,
returning the rest. -/
def dropLit : List Char → List Char → Option (List Char)
  | [], cs => some cs
  | _ :: _, [] => none
  | p :: ps, c :: cs => if c == p then dropLit ps cs else none

/-- Match `["~]([^"~]+)["~]`: a quote, one or more non-quote
characters (greedy, captured), then a quote (the two quotes need not
match each other, exactly as in the character classes of the source
pattern). -/
def matchQuoted (cs : List Char) : Option (String × List Char) :=
  match cs with
  | c :: rest =>
    if isQuoteChar c then
      let body := rest.takeWhile (fun d => !isQuoteChar d)
      let after := rest.dropWhile (fun d => !isQuoteChar d)
      if body.isEmpty then none
      else
        match after with
        | d :: rest2 => if isQuoteChar d then some (String.mk body, rest2) else none
        | [] => none
    else none
  | [] => none

/-- Try to match the whole pattern at the head of the input, returning
the two captured groups and the input remaining after the match. -/
def matchMcpCall (cs : List Char) : Option (String × String × List Char) := do
  let cs1 ← dropLit "mcp_call".toList cs
  let cs2 ← dropLit ['('] (dropWs cs1)
  let (server, cs3) ← matchQuoted (dropWs cs2)
  let cs4 ← dropLit [','] (dropWs cs3)
  let (tool, cs5) ← matchQuoted (dropWs cs4)
  some (server, tool, cs5)

/-- Scan the code left to right for non-overlapping pattern matches,
as `re.finditer` does; `fuel` bounds the recursion (any value at least
the input length is exact). -/
def scanCalls : Nat → List Char → List (String × String)
  | 0, _ => []
  | _ + 1, [] => []
  | fuel + 1, c :: rest =>
    match matchMcpCall (c :: rest) with
    | some (server, tool, rest2) => (server, tool) :: scanCalls fuel rest2
    | none => scanCalls fuel rest

/-- First-seen-order deduplication with a `seen` set, as in the loop of
`_extract_dependencies`. -/
def dedupSeen (seen : List (String × String)) :
    List (String × String) → List (String × String)
  | [] => []
  | p :: rest =>
    if p ∈ seen then dedupSeen seen rest
    else p :: dedupSeen (p :: seen) rest

/-- `SkillManager._extract_dependencies`: the deduplicated list of
`(server, tool)` pairs found by the scan, in first-seen order.  A
dependency is rendered as a dict with `server`/`tool` keys when stored;
see `depsToJVal`. -/
def extractDependencies (code : String) : List (String × String) :=
  dedupSeen [] (scanCalls (code.length + 1) code.toList)

/-- The JSON shape in which a dependency list is stored (a list of
`\x7b"server": ..., "tool": ...\x7d` dicts). -/
def depsToJVal (deps : List (String × String)) : JVal :=
  .arr (deps.map (fun d => .obj [("server", .str d.1), ("tool", .str d.2)]))

/-! ## Python string primitives used by the executor's result parser -/

/-- Boolean prefix test on character lists. -/
def isPfx : List Char → List Char → Bool
  | [], _ => true
  | _ :: _, [] => false
  | p :: ps, c :: cs => p == c && isPfx ps cs

/-- Index of the first occurrence of `pat` at or after position `i`. -/
def strFindAux (pat : List Char) : List Char → Nat → Option Nat
  | [], i => if pat.isEmpty then some i else none
  | c :: cs, i =>
    if isPfx pat (c :: cs) then some i else strFindAux pat cs (i + 1)

/-- Python `s.find(pat)`, with "not found" as `Option.none` instead of
`-1`. -/
def pyFind (s pat : String) : Option Nat :=
  strFindAux pat.toList s.toList 0

/-- Python slice `s[a:b]` for non-negative bounds: empty when
`b ≤ a`, clamped at the string's end. -/
def pySlice (s : String) (a b : Nat) : String :=
  String.mk ((s.toList.drop a).take (b - a))

/-- Python `s.strip()`: remove leading and trailing whitespace. -/
def pyStrip (s : String) : String :=
  String.mk (((s.toList.dropWhile isPyWs).reverse.dropWhile isPyWs).reverse)

/-! ## JSON decoding (`json.loads`)

A recursive-descent decoder for the values of `JVal`.  It models the
standard library's `json.loads`: on success the decoded value, on any
malformed input `Option.none` (Python raises `JSONDecodeError`).
Numerals are restricted to (optionally signed) integers and string
escapes to the single-character ones; every payload the executor's own
harness emits and every payload a claim mentions falls inside this
fragment. -/

/-- Decode a single-character escape. -/
def jEsc (e : Char) : Option Char :=
  if e == '"' then some '"'
  else if e == '\\' then some '\\'
  else if e == '/' then some '/'
  else if e == 'n' then some '\n'
  else if e == 't' then some '\t'
  else if e == 'r' then some '\x0d'
  else if e == 'b' then some '\x08'
  else if e == 'f' then some '\x0c'
  else none

/-- Decode a JSON string body (the opening quote already consumed). -/
def jStr : List Char → Option (String × List Char)
  | [] => none
  | c :: cs =>
    if c == '"' then some ("", cs)
    else if c == '\\' then
      match cs with
      | e :: cs2 =>
        match jEsc e with
        | some ch => (jStr cs2).map (fun r => (String.mk [ch] ++ r.1, r.2))
        | none => none
      | [] => none
    else (jStr cs).map (fun r => (String.mk [c] ++ r.1, r.2))

/-- Decode an integer numeral (optional minus sign, one or more
digits). -/
def jNum (cs : List Char) : Option (Int × List Char) :=
  let (neg, cs1) :=
    match cs with
    | c :: rest => if c == '-' then (true, rest) else (false, cs)
    | [] => (false, cs)
  let digits := cs1.takeWhile Char.isDigit
  let rest := cs1.dropWhile Char.isDigit
  if digits.isEmpty then none
  else
    let n : Nat := digits.foldl (fun a c => a * 10 + (c.toNat - 48)) 0
    some (if neg then -(n : Int) else (n : Int), rest)

/-- JSON insignificant whitespace. -/
def skipJWs (cs : List Char) : List Char :=
  cs.dropWhile (fun c => c == ' ' || c == '\t' || c == '\n' || c == '\x0d')

mutual

/-- Decode one JSON value; `fuel` bounds recursion depth. -/
def jVal : Nat → List Char → Option (JVal × List Char)
  | 0, _ => none
  | f + 1, input =>
    let cs := skipJWs input
    match cs with
    | [] => none
    | c :: rest =>
      if isPfx "null".toList cs then some (.null, cs.drop 4)
      else if isPfx "true".toList cs then some (.bool true, cs.drop 4)
      else if isPfx "false".toList cs then some (.bool false, cs.drop 5)
      else if c == '"' then (jStr rest).map (fun r => (.str r.1, r.2))
      else if c == '[' then jArr f rest
      else if c == Char.ofNat 123 then jObj f rest
      else (jNum cs).map (fun r => (.num r.1, r.2))

/-- Decode the items of an array (the `[` already consumed). -/
def jArr : Nat → List Char → Option (JVal × List Char)
  | 0, _ => none
  | f + 1, cs =>
    match skipJWs cs with
    | c :: rest =>
      if c == ']' then some (.arr [], rest)
      else do
        let (v, cs2) ← jVal f (skipJWs cs)
        jArrRest f [v] cs2
    | [] => none

/-- Decode `, item`* `]` after the first array item. -/
def jArrRest : Nat → List JVal → List Char → Option (JVal × List Char)
  | 0, _, _ => none
  | f + 1, acc, cs =>
    match skipJWs cs with
    | c :: rest =>
      if c == ',' then do
        let (v, cs2) ← jVal f rest
        jArrRest f (acc ++ [v]) cs2
      else if c == ']' then some (.arr acc, rest)
      else none
    | [] => none

/-- Decode the members of an object (the opening brace already
consumed). -/
def jObj : Nat → List Char → Option (JVal × List Char)
  | 0, _ => none
  | f + 1, cs =>
    match skipJWs cs with
    | c :: rest =>
      if c == Char.ofNat 125 then some (.obj [], rest)
      else do
        let (kv, cs2) ← jMember f (skipJWs cs)
        jObjRest f [kv] cs2
    | [] => none

/-- Decode one `"key": value` member. -/
def jMember : Nat → List Char → Option ((String × JVal) × List Char)
  | 0, _ => none
  | f + 1, cs =>
    match cs with
    | c :: rest =>
      if c == '"' then do
        let (k, cs2) ← jStr rest
        match skipJWs cs2 with
        | d :: cs3 =>
          if d == ':' then do
            let (v, cs4) ← jVal f cs3
            some ((k, v), cs4)
          else none
        | [] => none
      else none
    | [] => none

/-- Decode `, member`* and the closing brace after the first member. -/
def jObjRest : Nat → List (String × JVal) → List Char →
    Option (JVal × List Char)
  | 0, _, _ => none
  | f + 1, acc, cs =>
    match skipJWs cs with
    | c :: rest =>
      if c == ',' then do
        let (kv, cs2) ← jMember f (skipJWs rest)
        jObjRest f (acc ++ [kv]) cs2
      else if c == Char.ofNat 125 then some (.obj acc, rest)
      else none
    | [] => none

end

/-- Python `json.loads`: decode one value and require only whitespace
after it. -/
def jsonLoads (s : String) : Option JVal :=
  match jVal (2 * (s.length + 1)) s.toList with
  | some (v, rest) => if (skipJWs rest).isEmpty then some v else none
  | none => none

/-! ## The executor's result parser (`CodeExecutor._parse_result`)

executor.py lines 469-543: locate the two marker lines in the captured
stdout, decode the JSON between them; synthesize a failure report when
a marker is missing (`ParseError`) or decoding fails
(`JSONDecodeError`), always preserving the raw captured output under
`stdout`. -/

/-- The literal start marker printed by the harness. -/
def startMarker : String := "__RESULT_START__"

/-- The literal end marker printed by the harness. -/
def endMarker : String := "__RESULT_END__"

/-- The report synthesized when a marker is missing. -/
def parseErrorReport (output : String) : JVal :=
  .obj [("success", .bool false),
        ("return_value", .null),
        ("stdout", .str output),
        ("stderr", .str ""),
        ("error", .obj [("type", .str "ParseError"),
                        ("message", .str "Could not find result markers in output"),
                        ("traceback", .str ""),
                        ("line_number", .null),
                        ("code_context", .null)]),
        ("execution_time_ms", .num 0),
        ("exit_code", .num 1)]

/-- The report synthesized when the text between the markers fails to
decode (the `str(e)` suffix of the source's message is not modelled). -/
def jsonDecodeErrorReport (output : String) : JVal :=
  .obj [("success", .bool false),
        ("return_value", .null),
        ("stdout", .str output),
        ("stderr", .str ""),
        ("error", .obj [("type", .str "JSONDecodeError"),
                        ("message", .str "Failed to parse result JSON: "),
                        ("traceback", .str ""),
                        ("line_number", .null),
                        ("code_context", .null)]),
        ("execution_time_ms", .num 0),
        ("exit_code", .num 1)]

/-- `CodeExecutor._parse_result`.  Both marker positions are computed
with `find`; if either is missing the `ParseError` report results,
otherwise the slice strictly between the markers is stripped and
decoded (an end marker occurring before the start marker yields the
empty slice, which fails to decode). -/
def parseResult (output : String) : JVal :=
  match pyFind output startMarker, pyFind output endMarker with
  | some si, some ei =>
    let jsonStr := pyStrip (pySlice output (si + startMarker.length) ei)
    match jsonLoads jsonStr with
    | some v => v
    | none => jsonDecodeErrorReport output
  | _, _ => parseErrorReport output

/-! ## Docstring extraction (`SkillManager._extract_docstring`)

skill_manager.py lines 360-378: `ast.get_docstring(ast.parse(code))`,
with any exception caught and mapped to `""`.  The standard library
pair is modelled for the shapes the claims use: a module whose source
begins (after leading whitespace) with a triple-double-quoted string
literal has that literal's contents as its docstring; any other
module, and any unterminated literal (a syntax error in `ast.parse`),
yields `""`.  The `inspect.cleandoc` normalization applied by
`ast.get_docstring` is the identity on single-line docstrings and is
not modelled further. -/

/-- The three-character `"""` delimiter. -/
def tripleQuote : String := "\"\"\""

/-- `SkillManager._extract_docstring` (over the stdlib model described
above). -/
def extractDocstring (code : String) : String :=
  let t := code.toList.dropWhile isPyWs
  if isPfx tripleQuote.toList t then
    let rest := t.drop 3
    match strFindAux tripleQuote.toList rest 0 with
    | some j => String.mk (rest.take j)
    | none => ""
  else ""

/-! ## The Skills Store (`SkillsDatabase`, database.py)

The `skills` table is modelled as a list of rows.  The JSON-valued
`dependencies`/`metadata` columns hold `json.dumps` text or SQL NULL;
since `json.loads` inverts `json.dumps` on JSON-representable values,
a column is modelled as `Option JVal` with `Option.none` for NULL.
Timestamps (`datetime.utcnow().isoformat() + 'Z'`) are threaded as
explicit `now` arguments. -/

/-- One row of the `skills` table. -/
structure SkillRow where
  agent_name : String
  skill_name : String
  category : String
  code : String
  created_at : String
  updated_at : String
  dependencies : Option JVal
  metadata : Option JVal

/-- Does the row match the composite key `(agent, name)`? -/
def rowKeyIs (agent name : String) (r : SkillRow) : Bool :=
  r.agent_name == agent && r.skill_name == name

/-- The column value stored for a JSON parameter:
`json.dumps(x) if x else None` — a falsy value (`None`, `[]`, `\x7b\x7d`,
...) is stored as SQL NULL. -/
def storeJson : Option JVal → Option JVal
  | some v => if v.truthy then some v else none
  | none => none

/-- `SkillsDatabase.get_skill` (database.py lines 109-142): the first
row matching the key, its JSON columns decoded (NULL stays `None`). -/
def dbGetSkill (db : List SkillRow) (agent name : String) : Option SkillRow :=
  db.find? (rowKeyIs agent name)

/-- `SkillsDatabase.save_skill` (database.py lines 144-209): upsert.
If the key exists the row is updated in place, touching exactly
`category`, `code`, `updated_at`, `dependencies`, `metadata`; else a
new row is inserted with `created_at = updated_at = now`. -/
def dbSaveSkill (db : List SkillRow) (agent name category code : String)
    (dependencies metadata : Option JVal) (now : String) : List SkillRow :=
  match dbGetSkill db agent name with
  | some _ =>
    db.map (fun r =>
      if rowKeyIs agent name r then
        { r with category := category, code := code, updated_at := now,
                 dependencies := storeJson dependencies,
                 metadata := storeJson metadata }
      else r)
  | none =>
    db ++ [{ agent_name := agent, skill_name := name, category := category,
             code := code, created_at := now, updated_at := now,
             dependencies := storeJson dependencies,
             metadata := storeJson metadata }]

/-- Row order used by `SkillsDatabase.get_all_skills`:
`ORDER BY category, skill_name` (ascending, lexicographic on the
text columns). -/
def rowLE (a b : SkillRow) : Prop :=
  a.category < b.category ∨ (a.category = b.category ∧ a.skill_name ≤ b.skill_name)

instance : DecidableRel rowLE := fun a b => by
  unfold rowLE; infer_instance

/-- `SkillsDatabase.get_all_skills` (database.py lines 78-107): every
row of the agent, ordered by category then skill name, JSON columns
decoded (NULL stays `None`). -/
def dbGetAllSkills (db : List SkillRow) (agent : String) : List SkillRow :=
  List.insertionSort rowLE (db.filter (fun r => r.agent_name == agent))

/-! ## Skill filesystem materialization (`SkillManager`)

A skill directory `skills/\x7bcategory\x7d/\x7bname\x7d/` is modelled
as one record; the tree is an association list keyed by
`(category, name)`.  `README.md` generation uses the current date; the
README is recorded through the inputs that determine it. -/

/-- One materialized skill directory. -/
structure FsSkill where
  category : String
  name : String
  mainPy : String
  readme : String
  meta : List (String × JVal)
  initPy : String

/-- `SkillManager._generate_readme` (skill_manager.py lines 380-420);
`today` stands for `datetime.now().strftime('%Y-%m-%d')`. -/
def generateReadme (name category docstring : String) (tags : List String)
    (today : String) : String :=
  let base :=
    "# " ++ name ++ "\n\n**Category:** " ++ category ++ "\n**Created:** "
      ++ today ++ "\n\n## Description\n\n"
      ++ (if docstring == "" then "No description available." else docstring)
      ++ "\n\n## Usage\n\n```python\nfrom skills." ++ category ++ "." ++ name
      ++ " import *\n\n# Use the skill here\n```\n"
  if tags.isEmpty then base
  else base ++ "\n## Tags\n\n" ++ String.intercalate ", " tags ++ "\n"

/-- Normalization `dependencies = dependencies or []` applied by
`_write_to_filesystem`: an absent or falsy value becomes the empty
list. -/
def normDeps : Option JVal → JVal
  | some v => if v.truthy then v else .arr []
  | none => .arr []

/-- Normalization `metadata = metadata or \x7b\x7d` applied by
`_write_to_filesystem`, flattened to the dict's entries (every
metadata value reaching this function is a dict or `None`). -/
def normMetaDict : Option JVal → List (String × JVal)
  | some (.obj kvs) => kvs
  | _ => []

/-- The `tags` list used for the README: `metadata.get('tags', [])`. -/
def metaTags (md : List (String × JVal)) : List String :=
  match lookupDict md "tags" with
  | some (.arr xs) => xs.filterMap (fun v =>
      match v with
      | .str s => some s
      | _ => Option.none)
  | _ => []

/-- Lookup of a skill directory by `(category, name)`. -/
def fsLookup (fs : List FsSkill) (category name : String) : Option FsSkill :=
  fs.find? (fun e => e.category == category && e.name == name)

/-- The directory contents `_write_to_filesystem` produces for one
skill (skill_manager.py lines 227-278): `main.py` holds the code
verbatim; `.meta.json` is
`\x7bname, category, created, dependencies, **metadata\x7d`;
`__init__.py`'s docstring falls back to the skill name. -/
def mkFsSkill (name category code : String) (dependencies metadata : Option JVal)
    (now : String) : FsSkill :=
  let deps := normDeps dependencies
  let md := normMetaDict metadata
  let docstring := extractDocstring code
  { category := category
    name := name
    mainPy := code
    readme := generateReadme name category docstring (metaTags md) now
    meta := mergeDict
      [("name", .str name), ("category", .str category),
       ("created", .str now), ("dependencies", deps)] md
    initPy := "\"\"\"" ++ (if docstring == "" then name else docstring)
      ++ "\"\"\"\n\nfrom .main import *\n" }

/-- `SkillManager._write_to_filesystem`: create or overwrite the
directory for `(category, name)`. -/
def fsWrite (fs : List FsSkill) (name category code : String)
    (dependencies metadata : Option JVal) (now : String) : List FsSkill :=
  let e := mkFsSkill name category code dependencies metadata now
  if (fsLookup fs category name).isSome then
    fs.map (fun x => if x.category == category && x.name == name then e else x)
  else fs ++ [e]

/-- The manager's two stores. -/
structure ManagerState where
  fs : List FsSkill
  db : List SkillRow

/-- One `save_skill` call's arguments (with its wall-clock instant). -/
structure SaveCall where
  name : String
  category : String
  code : String
  tags : List String
  now : String

/-- The metadata dict `save_skill` builds (skill_manager.py lines
140-144): the tags and the extracted description. -/
def saveMetadata (c : SaveCall) : List (String × JVal) :=
  [("tags", .arr (c.tags.map .str)),
   ("description", .str (extractDocstring c.code))]

/-- `SkillManager.save_skill` with `persist_to_db=True`, observed
after its background database write has completed (skill_manager.py
lines 109-175): extract dependencies, build metadata, write the
filesystem synchronously, and apply the database upsert. -/
def applySave (agent : String) (st : ManagerState) (c : SaveCall) : ManagerState :=
  let deps := depsToJVal (extractDependencies c.code)
  let md : JVal := .obj (saveMetadata c)
  { fs := fsWrite st.fs c.name c.category c.code (some deps) (some md) c.now
    db := dbSaveSkill st.db agent c.name c.category c.code (some deps) (some md) c.now }

/-- `SkillManager.hydrate_from_database` (skill_manager.py lines
60-107): delete the whole tree, fetch every row for the agent, and
re-materialize each (a NULL `dependencies`/`metadata` column reaches
`_write_to_filesystem` as `None` and is normalized to empty); returns
the number of rows materialized. -/
def hydrate (agent : String) (st : ManagerState) (now : String) :
    Nat × ManagerState :=
  let rows := dbGetAllSkills st.db agent
  let fs := rows.foldl
    (fun fs r => fsWrite fs r.skill_name r.category r.code
        r.dependencies r.metadata now) []
  (rows.length, { fs := fs, db := st.db })

/-- Field access in a JSON object (`Option.none` on a non-object or a
missing key). -/
def getField (v : JVal) (k : String) : Option JVal :=
  match v with
  | .obj kvs => lookupDict kvs k
  | _ => Option.none

/-- The raw (pre-deduplication) match sequence of the dependency scan. -/
def rawScan (code : String) : List (String × String) :=
  scanCalls (code.length + 1) code.toList

/-- The database row one completed `save_skill` call leaves for a
previously unsaved name. -/
def saveRow (agent : String) (c : SaveCall) : SkillRow :=
  { agent_name := agent, skill_name := c.name, category := c.category,
    code := c.code, created_at := c.now, updated_at := c.now,
    dependencies := storeJson (some (depsToJVal (extractDependencies c.code))),
    metadata := storeJson (some (.obj (saveMetadata c))) }

/-- The directory hydration materializes for one database row. -/
def hydratedEntry (r : SkillRow) (now : String) : FsSkill :=
  mkFsSkill r.skill_name r.category r.code r.dependencies r.metadata now

/-! ## Theorems -/

theorem dedupSeen_sublist :
    ∀ (l seen : List (String × String)), List.Sublist (dedupSeen seen l) l := by
  intro l
  induction l with
  | nil => intro seen; simp [dedupSeen]
  | cons p rest ih =>
    intro seen
    by_cases h : p ∈ seen
    · simpa [dedupSeen, h] using (ih seen).cons p
    · simpa [dedupSeen, h] using (ih (p :: seen)).cons₂ p

theorem mem_dedupSeen_iff :
    ∀ (l seen : List (String × String)) (p : String × String),
      p ∈ dedupSeen seen l ↔ (p ∈ l ∧ p ∉ seen) := by
  intro l
  induction l with
  | nil => intro seen p; simp [dedupSeen]
  | cons q rest ih =>
    intro seen p
    by_cases h : q ∈ seen
    · simp only [dedupSeen, if_pos h, ih, List.mem_cons]
      constructor
      · rintro ⟨hp, hs⟩; exact ⟨Or.inr hp, hs⟩
      · rintro ⟨hp | hp, hs⟩
        · exact absurd (hp ▸ h) hs
        · exact ⟨hp, hs⟩
    · simp only [dedupSeen, if_neg h, List.mem_cons, ih, List.mem_cons]
      constructor
      · rintro (rfl | ⟨hp, hs⟩)
        · exact ⟨Or.inl rfl, h⟩
        · exact ⟨Or.inr hp, fun hx => hs (Or.inr hx)⟩
      · rintro ⟨rfl | hp, hs⟩
        · exact Or.inl rfl
        · by_cases hpq : p = q
          · exact Or.inl hpq
          · exact Or.inr ⟨hp, fun hx => hx.elim hpq hs⟩

theorem dedupSeen_nodup :
    ∀ (l seen : List (String × String)), (dedupSeen seen l).Nodup := by
  intro l
  induction l with
  | nil => intro seen; simp [dedupSeen]
  | cons q rest ih =>
    intro seen
    by_cases h : q ∈ seen
    · simpa [dedupSeen, h] using ih seen
    · simp only [dedupSeen, if_neg h, List.nodup_cons]
      refine ⟨fun hq => ?_, ih (q :: seen)⟩
      exact ((mem_dedupSeen_iff rest (q :: seen) q).mp hq).2 (List.mem_cons_self q seen)

/-- C6: dependency extraction is de-duplicating (its output has no
duplicates and keeps exactly the pairs the lexical scan finds) and
order-preserving (the output is a sublist of the scan's raw match
sequence, hence in first-seen order); it matches the dispatch call in
either quoting style, and on malformed code it returns a (possibly
empty) list rather than raising — the function is total by
construction.  Concretely: the same pair twice yields one entry, two
distinct pairs yield two entries in first-seen order, and unbalanced
garbage yields the empty list. -/
theorem c6_dependency_extraction :
    (∀ code : String, (extractDependencies code).Nodup) ∧
    (∀ code : String, List.Sublist (extractDependencies code) (rawScan code)) ∧
    (∀ (code : String) (p : String × String),
      p ∈ extractDependencies code ↔ p ∈ rawScan code) ∧
    extractDependencies "mcp_call(\"add\", \"sum\")\nmcp_call(\"add\", \"sum\")"
      = [("add", "sum")] ∧
    extractDependencies "mcp_call('gdrive', 'list_files')\nmcp_call(\"mail\", \"send\")"
      = [("gdrive", "list_files"), ("mail", "send")] ∧
    extractDependencies "mcp_call(((" = [] := by
  refine ⟨fun code => dedupSeen_nodup _ [],
          fun code => dedupSeen_sublist _ [],
          fun code p => ?_, by decide, by decide, by decide⟩
  simpa using mem_dedupSeen_iff (rawScan code) [] p

/-- C3: the three-tier result normalization of the routing runtime.
If the raw result carries a non-empty list of content items whose
first item has a textual payload, that text is returned; if the first
item has no textual payload, that first raw item is returned; if
there is no content wrapper at all, the raw result object is returned
unchanged. -/
theorem c3_result_normalization :
    (∀ (r : RawResult) (t : String) (rest : List ContentItem),
      r.content = some (.list (.textual t :: rest)) →
      normalizeResult r = .text t) ∧
    (∀ (r : RawResult) (tag : Nat) (rest : List ContentItem),
      r.content = some (.list (.other tag :: rest)) →
      normalizeResult r = .item (.other tag)) ∧
    (∀ r : RawResult, r.content = Option.none → normalizeResult r = .raw r) := by
  refine ⟨fun r t rest h => ?_, fun r tag rest h => ?_, fun r h => ?_⟩
  · simp [normalizeResult, h, RawContent.isTruthy]
  · simp [normalizeResult, h, RawContent.isTruthy]
  · simp [normalizeResult, h]

/-- Witness for C3 at concrete raw results. -/
theorem c3_result_normalization_witness :
    normalizeResult ⟨some (.list [.textual "ok", .other 9]), 7⟩ = .text "ok" ∧
    normalizeResult ⟨some (.list [.other 3]), 7⟩ = .item (.other 3) ∧
    normalizeResult ⟨Option.none, 7⟩ = .raw ⟨Option.none, 7⟩ :=
  ⟨c3_result_normalization.1 ⟨some (.list [.textual "ok", .other 9]), 7⟩ "ok" [.other 9] rfl,
   c3_result_normalization.2.1 ⟨some (.list [.other 3]), 7⟩ 3 [] rfl,
   c3_result_normalization.2.2 ⟨Option.none, 7⟩ rfl⟩

/-- C7: the result parser is total (it returns a report for every
captured output and never raises).  When both markers are found and
the stripped text between them decodes as JSON, the decoded report is
returned; when a marker is missing, the synthesized report has
`success=false`, `error.type = "ParseError"` and the raw output under
`stdout`; when decoding fails, it has `error.type = "JSONDecodeError"`
and likewise preserves the raw output. -/
theorem c7_parse_result :
    (∀ (output : String) (si ei : Nat) (v : JVal),
      pyFind output startMarker = some si →
      pyFind output endMarker = some ei →
      jsonLoads (pyStrip (pySlice output (si + startMarker.length) ei)) = some v →
      parseResult output = v) ∧
    (∀ output : String,
      pyFind output startMarker = Option.none ∨
        pyFind output endMarker = Option.none →
      parseResult output = parseErrorReport output) ∧
    (∀ (output : String) (si ei : Nat),
      pyFind output startMarker = some si →
      pyFind output endMarker = some ei →
      jsonLoads (pyStrip (pySlice output (si + startMarker.length) ei)) = Option.none →
      parseResult output = jsonDecodeErrorReport output) ∧
    (∀ output : String,
      getField (parseErrorReport output) "stdout" = some (.str output) ∧
      (getField (parseErrorReport output) "error").bind (fun e => getField e "type")
        = some (.str "ParseError") ∧
      getField (parseErrorReport output) "success" = some (.bool false) ∧
      getField (jsonDecodeErrorReport output) "stdout" = some (.str output) ∧
      (getField (jsonDecodeErrorReport output) "error").bind (fun e => getField e "type")
        = some (.str "JSONDecodeError") ∧
      getField (jsonDecodeErrorReport output) "success" = some (.bool false)) := by
  refine ⟨fun output si ei v hs he hj => ?_, fun output h => ?_,
          fun output si ei hs he hj => ?_, fun output => ?_⟩
  · simp [parseResult, hs, he, hj]
  · rcases h with h | h
    · simp [parseResult, h]
    · rcases hs : pyFind output startMarker with _ | si
      · simp [parseResult, hs, h]
      · simp [parseResult, hs, h]
  · simp [parseResult, hs, he, hj]
  · exact ⟨rfl, rfl, rfl, rfl, rfl, rfl⟩

/-- Witness for C7: a well-formed harness output decodes to its
report; an output without markers synthesizes the `ParseError` report;
markers around undecodable text synthesize the `JSONDecodeError`
report. -/
theorem c7_parse_result_witness :
    parseResult "__RESULT_START__\n\x7b\"success\": true\x7d\n__RESULT_END__\n"
      = .obj [("success", .bool true)] ∧
    parseResult "no markers" = parseErrorReport "no markers" ∧
    parseResult "__RESULT_START__ oops __RESULT_END__"
      = jsonDecodeErrorReport "__RESULT_START__ oops __RESULT_END__" :=
  ⟨c7_parse_result.1 "__RESULT_START__\n\x7b\"success\": true\x7d\n__RESULT_END__\n"
      0 35 (.obj [("success", .bool true)]) rfl rfl rfl,
   c7_parse_result.2.1 "no markers" (Or.inl rfl),
   c7_parse_result.2.2.1 "__RESULT_START__ oops __RESULT_END__" 0 22 rfl rfl rfl⟩

theorem rowKeyIs_update (agent name category code : String)
    (deps meta : Option JVal) (now : String) (r : SkillRow) :
    rowKeyIs agent name
      { r with category := category, code := code, updated_at := now,
               dependencies := deps, metadata := meta }
      = rowKeyIs agent name r := rfl

theorem dbSaveSkill_key_pred (agent name category code : String)
    (deps meta : Option JVal) (now : String) :
    (rowKeyIs agent name ∘ fun r =>
      if rowKeyIs agent name r = true then
        { r with category := category, code := code, updated_at := now,
                 dependencies := storeJson deps, metadata := storeJson meta }
      else r)
      = rowKeyIs agent name := by
  funext r
  by_cases h : rowKeyIs agent name r
  · simp only [Function.comp_apply, h, if_true]
    rw [rowKeyIs_update agent name category code
      (storeJson deps) (storeJson meta) now r, h]
  · simp [h]

theorem dbGetSkill_save_of_found (db : List SkillRow)
    (agent name category code : String) (deps meta : Option JVal)
    (now : String) (r : SkillRow)
    (h : dbGetSkill db agent name = some r) :
    dbGetSkill (dbSaveSkill db agent name category code deps meta now) agent name
      = some { r with category := category, code := code, updated_at := now,
                      dependencies := storeJson deps,
                      metadata := storeJson meta } := by
  have hkey : rowKeyIs agent name r = true := List.find?_some h
  unfold dbSaveSkill
  rw [h]
  unfold dbGetSkill at h ⊢
  rw [List.find?_map, dbSaveSkill_key_pred, h]
  simp [hkey]

theorem dbGetSkill_save_of_absent (db : List SkillRow)
    (agent name category code : String) (deps meta : Option JVal)
    (now : String)
    (h : dbGetSkill db agent name = Option.none) :
    dbGetSkill (dbSaveSkill db agent name category code deps meta now) agent name
      = some { agent_name := agent, skill_name := name, category := category,
               code := code, created_at := now, updated_at := now,
               dependencies := storeJson deps,
               metadata := storeJson meta } := by
  unfold dbSaveSkill
  rw [h]
  unfold dbGetSkill at h ⊢
  rw [List.find?_append, h]
  simp [rowKeyIs]

theorem keyCount_save_of_absent (db : List SkillRow)
    (agent name category code : String) (deps meta : Option JVal)
    (now : String)
    (h : dbGetSkill db agent name = Option.none) :
    ((dbSaveSkill db agent name category code deps meta now).filter
        (rowKeyIs agent name)).length = 1 := by
  unfold dbSaveSkill
  rw [h]
  unfold dbGetSkill at h
  rw [List.filter_append, List.find?_eq_none.mp h |> fun hall =>
    List.filter_eq_nil_iff.mpr hall]
  simp [rowKeyIs]

theorem keyCount_save_of_found (db : List SkillRow)
    (agent name category code : String) (deps meta : Option JVal)
    (now : String) (r : SkillRow)
    (h : dbGetSkill db agent name = some r) :
    ((dbSaveSkill db agent name category code deps meta now).filter
        (rowKeyIs agent name)).length
      = (db.filter (rowKeyIs agent name)).length := by
  unfold dbSaveSkill
  rw [h, List.filter_map, dbSaveSkill_key_pred, List.length_map]

/-- C5: the Store's `save_skill` is an upsert.  Saving the same
`(agent, name)` twice with identical arguments leaves exactly one row
for the key, whose `created_at` is the first write's timestamp and
whose `updated_at` is the second's; an update rewrites only
`category`, `code`, `updated_at`, `dependencies`, `metadata`
(preserving `agent_name`, `skill_name`, `created_at`); a first write
inserts a row with `created_at = updated_at = now`. -/
theorem c5_store_upsert :
    (∀ (db : List SkillRow) (agent name category code : String)
        (deps meta : Option JVal) (t1 t2 : String),
      dbGetSkill db agent name = Option.none →
      (((dbSaveSkill (dbSaveSkill db agent name category code deps meta t1)
            agent name category code deps meta t2).filter
          (rowKeyIs agent name)).length = 1) ∧
      dbGetSkill (dbSaveSkill (dbSaveSkill db agent name category code deps meta t1)
          agent name category code deps meta t2) agent name
        = some { agent_name := agent, skill_name := name, category := category,
                 code := code, created_at := t1, updated_at := t2,
                 dependencies := storeJson deps, metadata := storeJson meta }) ∧
    (∀ (db : List SkillRow) (agent name category code : String)
        (deps meta : Option JVal) (now : String) (r : SkillRow),
      dbGetSkill db agent name = some r →
      dbGetSkill (dbSaveSkill db agent name category code deps meta now) agent name
        = some { r with category := category, code := code, updated_at := now,
                        dependencies := storeJson deps,
                        metadata := storeJson meta }) ∧
    (∀ (db : List SkillRow) (agent name category code : String)
        (deps meta : Option JVal) (now : String),
      dbGetSkill db agent name = Option.none →
      dbGetSkill (dbSaveSkill db agent name category code deps meta now) agent name
        = some { agent_name := agent, skill_name := name, category := category,
                 code := code, created_at := now, updated_at := now,
                 dependencies := storeJson deps,
                 metadata := storeJson meta }) := by
  refine ⟨fun db agent name category code deps meta t1 t2 h => ?_,
          fun db agent name category code deps meta now r h =>
            dbGetSkill_save_of_found db agent name category code deps meta now r h,
          fun db agent name category code deps meta now h =>
            dbGetSkill_save_of_absent db agent name category code deps meta now h⟩
  have h1 := dbGetSkill_save_of_absent db agent name category code deps meta t1 h
  constructor
  · rw [keyCount_save_of_found _ agent name category code deps meta t2 _ h1]
    exact keyCount_save_of_absent db agent name category code deps meta t1 h
  · rw [dbGetSkill_save_of_found _ agent name category code deps meta t2 _ h1]

/-- Witness for C5 at a concrete double save. -/
theorem c5_store_upsert_witness :
    (((dbSaveSkill (dbSaveSkill [] "a" "s" "c" "x = 1" Option.none Option.none "t1")
          "a" "s" "c" "x = 1" Option.none Option.none "t2").filter
        (rowKeyIs "a" "s")).length = 1) ∧
    dbGetSkill (dbSaveSkill (dbSaveSkill [] "a" "s" "c" "x = 1" Option.none Option.none "t1")
        "a" "s" "c" "x = 1" Option.none Option.none "t2") "a" "s"
      = some { agent_name := "a", skill_name := "s", category := "c",
               code := "x = 1", created_at := "t1", updated_at := "t2",
               dependencies := Option.none, metadata := Option.none } :=
  c5_store_upsert.1 [] "a" "s" "c" "x = 1" Option.none Option.none "t1" "t2" rfl

/-- Counterexample to C8: saving an empty dependencies list and an
empty metadata object stores SQL NULL (the source guards
`json.dumps(x) if x else None`, and an empty list/dict is falsy), so
`get_skill` returns null, not the saved empty values. -/
theorem c8_cex_empty_not_roundtripped :
    (dbGetSkill (dbSaveSkill [] "agent" "sk" "cat" "x = 1"
        (some (JVal.arr [])) (some (JVal.obj [])) "t0") "agent" "sk").map
      SkillRow.dependencies = some Option.none ∧
    (dbGetSkill (dbSaveSkill [] "agent" "sk" "cat" "x = 1"
        (some (JVal.arr [])) (some (JVal.obj [])) "t0") "agent" "sk").map
      SkillRow.metadata = some Option.none ∧
    some (Option.none : Option JVal) ≠ some (some (JVal.arr [])) ∧
    some (Option.none : Option JVal) ≠ some (some (JVal.obj [])) :=
  ⟨rfl, rfl, by simp, by simp⟩

/-- C8 as amended: the JSON columns are opaque and round-trip any
truthy (in particular, any non-empty) serializable value unchanged
through `save_skill` followed by `get_skill`; falsy values — the empty
list, the empty object, `null` — are stored as SQL NULL and read back
as null. -/
theorem c8_json_roundtrip :
    (∀ (db : List SkillRow) (agent name category code : String) (d m : JVal),
      d.truthy = true → m.truthy = true →
      ∃ r, dbGetSkill (dbSaveSkill db agent name category code
              (some d) (some m) "t") agent name = some r ∧
        r.dependencies = some d ∧ r.metadata = some m) ∧
    (∀ (db : List SkillRow) (agent name category code : String) (d m : JVal),
      d.truthy = false → m.truthy = false →
      ∃ r, dbGetSkill (dbSaveSkill db agent name category code
              (some d) (some m) "t") agent name = some r ∧
        r.dependencies = Option.none ∧ r.metadata = Option.none) := by
  constructor
  · intro db agent name category code d m hd hm
    rcases h : dbGetSkill db agent name with _ | r0
    · exact ⟨_, dbGetSkill_save_of_absent db agent name category code
        (some d) (some m) "t" h, by simp [storeJson, hd], by simp [storeJson, hm]⟩
    · exact ⟨_, dbGetSkill_save_of_found db agent name category code
        (some d) (some m) "t" r0 h, by simp [storeJson, hd], by simp [storeJson, hm]⟩
  · intro db agent name category code d m hd hm
    rcases h : dbGetSkill db agent name with _ | r0
    · exact ⟨_, dbGetSkill_save_of_absent db agent name category code
        (some d) (some m) "t" h, by simp [storeJson, hd], by simp [storeJson, hm]⟩
    · exact ⟨_, dbGetSkill_save_of_found db agent name category code
        (some d) (some m) "t" r0 h, by simp [storeJson, hd], by simp [storeJson, hm]⟩

/-- Witness for C8 (amended) at concrete non-empty and empty values. -/
theorem c8_json_roundtrip_witness :
    (∃ r, dbGetSkill (dbSaveSkill [] "a" "s" "c" "x = 1"
        (some (JVal.arr [JVal.num 1])) (some (JVal.obj [("k", JVal.null)])) "t")
        "a" "s" = some r ∧
      r.dependencies = some (JVal.arr [JVal.num 1]) ∧
      r.metadata = some (JVal.obj [("k", JVal.null)])) ∧
    (∃ r, dbGetSkill (dbSaveSkill [] "a" "s" "c" "x = 1"
        (some (JVal.arr [])) (some (JVal.obj [])) "t") "a" "s" = some r ∧
      r.dependencies = Option.none ∧ r.metadata = Option.none) :=
  ⟨c8_json_roundtrip.1 [] "a" "s" "c" "x = 1"
      (JVal.arr [JVal.num 1]) (JVal.obj [("k", JVal.null)]) rfl rfl,
   c8_json_roundtrip.2 [] "a" "s" "c" "x = 1"
      (JVal.arr []) (JVal.obj []) rfl rfl⟩

theorem harnessReturnValue_eq (ns : PyNamespace) :
    harnessReturnValue ns =
      (match nsGet ns "__result__" with
       | some v => if v = PyVal.none
           then (resultVarNames.findSome? (nsGet ns)).getD PyVal.none
           else v
       | Option.none => (resultVarNames.findSome? (nsGet ns)).getD PyVal.none) := by
  unfold harnessReturnValue
  rcases h : nsGet ns "__result__" with _ | v
  · simp only [h, Option.getD_none, if_pos]
    rcases hf : resultVarNames.findSome? (nsGet ns) with _ | w <;> simp
  · simp only [h, Option.getD_some]
    by_cases hv : v = PyVal.none
    · simp only [hv, if_pos]
      rcases hf : resultVarNames.findSome? (nsGet ns) with _ | w <;> simp
    · simp [hv]

/-- Counterexample to C1: in the program `__result__ = None` /
`result = 4`, the sentinel `__result__` is bound (to null), yet the
report's `return_value` is `4`, taken from the fallback variable
`result` — the sentinel's binding is not honoured when its value is
null, contradicting "the `__result__` sentinel if bound". -/
theorem c1_cex_sentinel_bound_to_null :
    runProgram [PyStmt.assign "__result__" PyExpr.noneLit,
                PyStmt.assign "result" (PyExpr.lit 4)]
      = Except.ok [("__result__", PyVal.none), ("result", PyVal.int 4)] ∧
    nsGet [("__result__", PyVal.none), ("result", PyVal.int 4)] "__result__"
      = some PyVal.none ∧
    (runWrapper [PyStmt.assign "__result__" PyExpr.noneLit,
                 PyStmt.assign "result" (PyExpr.lit 4)]).return_value
      = PyVal.int 4 ∧
    PyVal.int 4 ≠ PyVal.none :=
  ⟨rfl, rfl, rfl, by decide⟩

/-- C1 as amended: for every program whose execution completes without
raising, the report has `success=true`, `error=null`, and
`return_value` equal to the `__result__` sentinel when that is bound
to a non-null value, else to the value of the first bound name among
`result`, `output`, `answer`, `data`, else null; in particular
`result = 2 + 2` yields `success=true`, `return_value=4`,
`error=null`. -/
theorem c1_success_report :
    (∀ (p : PyProgram) (ns : PyNamespace), runProgram p = .ok ns →
      (runWrapper p).success = true ∧
      (runWrapper p).error = Option.none ∧
      (runWrapper p).return_value =
        (match nsGet ns "__result__" with
         | some v => if v = PyVal.none
             then (resultVarNames.findSome? (nsGet ns)).getD PyVal.none
             else v
         | Option.none => (resultVarNames.findSome? (nsGet ns)).getD PyVal.none)) ∧
    (runWrapper [PyStmt.assign "result" (PyExpr.add (PyExpr.lit 2) (PyExpr.lit 2))]).success
      = true ∧
    (runWrapper [PyStmt.assign "result" (PyExpr.add (PyExpr.lit 2) (PyExpr.lit 2))]).return_value
      = PyVal.int 4 ∧
    (runWrapper [PyStmt.assign "result" (PyExpr.add (PyExpr.lit 2) (PyExpr.lit 2))]).error
      = Option.none := by
  refine ⟨fun p ns h => ?_, rfl, rfl, rfl⟩
  unfold runWrapper
  rw [h]
  exact ⟨rfl, rfl, harnessReturnValue_eq ns⟩

/-- Witness for C1 (amended) at a concrete completing program. -/
theorem c1_success_report_witness :
    (runWrapper [PyStmt.assign "answer" (PyExpr.lit 7)]).success = true ∧
    (runWrapper [PyStmt.assign "answer" (PyExpr.lit 7)]).error = Option.none ∧
    (runWrapper [PyStmt.assign "answer" (PyExpr.lit 7)]).return_value =
      (match nsGet [("answer", PyVal.int 7)] "__result__" with
       | some v => if v = PyVal.none
           then (resultVarNames.findSome?
               (nsGet [("answer", PyVal.int 7)])).getD PyVal.none
           else v
       | Option.none => (resultVarNames.findSome?
           (nsGet [("answer", PyVal.int 7)])).getD PyVal.none) :=
  c1_success_report.1 [PyStmt.assign "answer" (PyExpr.lit 7)]
    [("answer", PyVal.int 7)] rfl

theorem runStmts_error_line_bounds :
    ∀ (p : PyProgram) (ns : PyNamespace) (line : Nat) (e : PyExc),
      runStmts ns line p = .error e → line ≤ e.userLine ∧ e.userLine < line + p.length := by
  intro p
  induction p with
  | nil => intro ns line e h; simp [runStmts] at h
  | cons s rest ih =>
    intro ns line e h
    rcases s with ⟨x, ex⟩
    rcases hev : evalExpr ns ex with t | v
    · rcases t with ⟨ty, msg⟩
      simp only [runStmts, hev] at h
      cases h
      constructor
      · exact Nat.le_refl _
      · simp only [List.length_cons]
        omega
    · simp only [runStmts, hev] at h
      have := ih (nsSet ns x v) (line + 1) e h
      constructor
      · omega
      · simp only [List.length_cons]
        omega

/-- Counterexample to C2: for the one-line submission `result = 1/0`,
the report's `error.line_number` is 2, not 1, and 2 is not a line of
the one-line submitted string — the harness compiles the body with one
blank line prepended, shifting every reported line number by one. -/
theorem c2_cex_line_number_off_by_one :
    (runWrapper [PyStmt.assign "result" (PyExpr.div (PyExpr.lit 1) (PyExpr.lit 0))]).error
      = some { type := "ZeroDivisionError", message := "division by zero",
               line_number := some 2, code_context := some "" } ∧
    (2 : Nat) ≠ 1 ∧
    ¬ 2 ≤ List.length [PyStmt.assign "result" (PyExpr.div (PyExpr.lit 1) (PyExpr.lit 0))] :=
  ⟨rfl, by decide, by decide⟩

/-- C2 as amended: for every program that raises inside the submitted
body, the report has `success=false` and a non-null error whose
`type` is the exception's type name and whose `line_number` is the
failing line's 1-based position in the submitted code string plus one
(the harness prepends one blank line to the compiled body), the
failing position itself lying within the submitted string; in
particular `result = 1/0` yields `success=false`,
`error.type = "ZeroDivisionError"` and `error.line_number = 2`. -/
theorem c2_error_report :
    (∀ (p : PyProgram) (e : PyExc), runProgram p = .error e →
      (runWrapper p).success = false ∧
      (runWrapper p).error
        = some { type := e.type, message := e.message,
                 line_number := some (e.userLine + 1),
                 code_context := some "" } ∧
      1 ≤ e.userLine ∧ e.userLine ≤ p.length) ∧
    (runWrapper [PyStmt.assign "result" (PyExpr.div (PyExpr.lit 1) (PyExpr.lit 0))]).success
      = false ∧
    ((runWrapper [PyStmt.assign "result" (PyExpr.div (PyExpr.lit 1) (PyExpr.lit 0))]).error.map
        ErrorDetail.type) = some "ZeroDivisionError" ∧
    ((runWrapper [PyStmt.assign "result" (PyExpr.div (PyExpr.lit 1) (PyExpr.lit 0))]).error.map
        ErrorDetail.line_number) = some (some 2) := by
  refine ⟨fun p e h => ?_, rfl, rfl, rfl⟩
  have hb := runStmts_error_line_bounds p [] 1 e h
  refine ⟨?_, ?_, hb.1, by omega⟩
  · unfold runWrapper; rw [h]
  · unfold runWrapper; rw [h]

/-- Witness for C2 (amended) at a concrete raising program. -/
theorem c2_error_report_witness :
    (runWrapper [PyStmt.assign "x" (PyExpr.lit 3),
                 PyStmt.assign "y" (PyExpr.var "zz")]).success = false ∧
    (runWrapper [PyStmt.assign "x" (PyExpr.lit 3),
                 PyStmt.assign "y" (PyExpr.var "zz")]).error
      = some { type := "NameError", message := "name zz is not defined",
               line_number := some 3, code_context := some "" } ∧
    1 ≤ 2 ∧ 2 ≤ List.length [PyStmt.assign "x" (PyExpr.lit 3),
                 PyStmt.assign "y" (PyExpr.var "zz")] :=
  c2_error_report.1 [PyStmt.assign "x" (PyExpr.lit 3),
      PyStmt.assign "y" (PyExpr.var "zz")]
    ⟨"NameError", "name zz is not defined", 2⟩ rfl

/-- Counterexample to C10: with `result = None` / `output = 5` (and
`__result__` unbound), the report's `return_value` is null although
both `result` and `output` are bound — null `return_value` does not
imply that none of the conventional names is bound. -/
theorem c10_cex_null_with_bound_names :
    runProgram [PyStmt.assign "result" PyExpr.noneLit,
                PyStmt.assign "output" (PyExpr.lit 5)]
      = Except.ok [("result", PyVal.none), ("output", PyVal.int 5)] ∧
    nsGet [("result", PyVal.none), ("output", PyVal.int 5)] "__result__"
      = Option.none ∧
    (nsGet [("result", PyVal.none), ("output", PyVal.int 5)] "result").isSome = true ∧
    (nsGet [("result", PyVal.none), ("output", PyVal.int 5)] "output").isSome = true ∧
    (runWrapper [PyStmt.assign "result" PyExpr.noneLit,
                 PyStmt.assign "output" (PyExpr.lit 5)]).return_value = PyVal.none :=
  ⟨rfl, rfl, rfl, rfl, rfl⟩

/-- C10 as amended: when `__result__` is unbound or bound to null, the
report's `return_value` is the value of the first bound name among
`result`, `output`, `answer`, `data` (whatever that value is, null
included), and it is null exactly when none of those names is bound or
the first bound one is itself bound to null. -/
theorem c10_sentinel_null_fallback :
    ∀ (p : PyProgram) (ns : PyNamespace), runProgram p = .ok ns →
      (nsGet ns "__result__" = Option.none ∨ nsGet ns "__result__" = some PyVal.none) →
      (runWrapper p).return_value
        = (resultVarNames.findSome? (nsGet ns)).getD PyVal.none ∧
      ((runWrapper p).return_value = PyVal.none ↔
        (resultVarNames.findSome? (nsGet ns) = Option.none ∨
         resultVarNames.findSome? (nsGet ns) = some PyVal.none)) := by
  intro p ns h hsent
  have hrv : (runWrapper p).return_value
      = (resultVarNames.findSome? (nsGet ns)).getD PyVal.none := by
    unfold runWrapper
    rw [h]
    show harnessReturnValue ns = _
    rw [harnessReturnValue_eq ns]
    rcases hsent with hs | hs <;> simp [hs]
  refine ⟨hrv, ?_⟩
  rw [hrv]
  rcases hf : resultVarNames.findSome? (nsGet ns) with _ | w
  · simp
  · simp

/-- Witness for C10 (amended): `__result__` unbound, `answer` bound. -/
theorem c10_sentinel_null_fallback_witness :
    (runWrapper [PyStmt.assign "answer" (PyExpr.lit 9)]).return_value
      = (resultVarNames.findSome?
          (nsGet [("answer", PyVal.int 9)])).getD PyVal.none ∧
    ((runWrapper [PyStmt.assign "answer" (PyExpr.lit 9)]).return_value = PyVal.none ↔
      (resultVarNames.findSome? (nsGet [("answer", PyVal.int 9)]) = Option.none ∨
       resultVarNames.findSome? (nsGet [("answer", PyVal.int 9)]) = some PyVal.none)) :=
  c10_sentinel_null_fallback [PyStmt.assign "answer" (PyExpr.lit 9)]
    [("answer", PyVal.int 9)] rfl (Or.inl rfl)

theorem mkFsSkill_category (name category code : String)
    (deps metadata : Option JVal) (now : String) :
    (mkFsSkill name category code deps metadata now).category = category := rfl

theorem mkFsSkill_name (name category code : String)
    (deps metadata : Option JVal) (now : String) :
    (mkFsSkill name category code deps metadata now).name = name := rfl

theorem fsLookup_fsWrite_self (fs : List FsSkill) (name category code : String)
    (deps metadata : Option JVal) (now : String) :
    fsLookup (fsWrite fs name category code deps metadata now) category name
      = some (mkFsSkill name category code deps metadata now) := by
  by_cases h : (fsLookup fs category name).isSome
  · simp only [fsWrite, if_pos h]
    unfold fsLookup at h ⊢
    obtain ⟨r, hr⟩ := Option.isSome_iff_exists.mp h
    have hkey := List.find?_some hr
    have hpred : ((fun e : FsSkill => e.category == category && e.name == name) ∘
        fun x =>
          if ((x.category == category) && (x.name == name)) = true then
            mkFsSkill name category code deps metadata now
          else x)
        = fun e : FsSkill => e.category == category && e.name == name := by
      funext x
      by_cases hx : ((x.category == category) && (x.name == name)) = true
      · simp [Function.comp, hx, mkFsSkill_category, mkFsSkill_name]
      · simp [Function.comp, hx]
    rw [List.find?_map, hpred, hr]
    simp only [Bool.and_eq_true, beq_iff_eq] at hkey
    simp [hkey]
  · simp only [fsWrite, if_neg h]
    unfold fsLookup at h ⊢
    rw [List.find?_append, Option.not_isSome_iff_eq_none.mp h]
    simp [mkFsSkill_category, mkFsSkill_name]

/-- Counterexample to C9: saving docstring-less code under the name
`f` stores the empty string as the skill's description — both in the
filesystem sidecar's `description` field and in the database metadata
— not the skill name `f`. -/
theorem c9_cex_description_not_name :
    ((fsLookup (applySave "agent" ⟨[], []⟩
          ⟨"f", "c", "x = 1", [], "t"⟩).fs "c" "f").bind
        (fun e => lookupDict e.meta "description")) = some (JVal.str "") ∧
    extractDocstring "x = 1" = "" ∧
    JVal.str "" ≠ JVal.str "f" ∧
    ((dbGetSkill (applySave "agent" ⟨[], []⟩
          ⟨"f", "c", "x = 1", [], "t"⟩).db "agent" "f").bind
        (fun r => r.metadata))
      = some (JVal.obj [("tags", JVal.arr []), ("description", JVal.str "")]) :=
  ⟨rfl, rfl, by simp, rfl⟩

/-- C9 as amended: the description stored for a skill is the code's
leading docstring when one is present and the empty string otherwise;
the fallback to the skill name applies only to the generated
entry-point file's (`__init__.py`) docstring. -/
theorem c9_description_fallback (agent : String) (st : ManagerState) (c : SaveCall) :
    ((fsLookup (applySave agent st c).fs c.category c.name).bind
        (fun e => lookupDict e.meta "description"))
      = some (JVal.str (extractDocstring c.code)) ∧
    (fsLookup (applySave agent st c).fs c.category c.name).map FsSkill.initPy
      = some ("\"\"\"" ++ (if extractDocstring c.code == "" then c.name
          else extractDocstring c.code) ++ "\"\"\"\n\nfrom .main import *\n") := by
  have hw := fsLookup_fsWrite_self st.fs c.name c.category c.code
    (some (depsToJVal (extractDependencies c.code)))
    (some (JVal.obj (saveMetadata c))) c.now
  constructor
  · show ((fsLookup (fsWrite st.fs c.name c.category c.code _ _ c.now)
        c.category c.name).bind (fun e => lookupDict e.meta "description")) = _
    rw [hw]
    rfl
  · show ((fsLookup (fsWrite st.fs c.name c.category c.code _ _ c.now)
        c.category c.name).map FsSkill.initPy) = _
    rw [hw]
    rfl

theorem normDeps_storeJson_depsToJVal (l : List (String × String)) :
    normDeps (storeJson (some (depsToJVal l))) = depsToJVal l := by
  cases l with
  | nil => rfl
  | cons a as => rfl

theorem foldl_applySave_db (agent : String) :
    ∀ (saves : List SaveCall) (st : ManagerState),
      (saves.map SaveCall.name).Nodup →
      (∀ c ∈ saves, dbGetSkill st.db agent c.name = Option.none) →
      (saves.foldl (applySave agent) st).db = st.db ++ saves.map (saveRow agent) := by
  intro saves
  induction saves with
  | nil => intro st h1 h2; simp
  | cons c rest ih =>
    intro st h1 h2
    have hc : dbGetSkill st.db agent c.name = Option.none :=
      h2 c (List.mem_cons_self c rest)
    have hdb : (applySave agent st c).db = st.db ++ [saveRow agent c] := by
      show dbSaveSkill st.db agent c.name c.category c.code _ _ c.now = _
      unfold dbSaveSkill
      rw [hc]
      rfl
    have hnodup := (List.nodup_cons.mp h1).2
    have hhead := (List.nodup_cons.mp h1).1
    rw [List.foldl_cons, ih (applySave agent st c) hnodup ?fresh]
    · rw [hdb, List.map_cons, List.append_assoc, List.singleton_append]
    case fresh =>
      intro d hd
      rw [hdb]
      unfold dbGetSkill at h2 ⊢
      rw [List.find?_append, h2 d (List.mem_cons_of_mem c hd)]
      have hne : c.name ≠ d.name := by
        intro he
        exact hhead (he ▸ List.mem_map_of_mem SaveCall.name hd)
      simp [rowKeyIs, saveRow, hne]

theorem filter_agent_saveRows (agent : String) (saves : List SaveCall) :
    (saves.map (saveRow agent)).filter (fun r => r.agent_name == agent)
      = saves.map (saveRow agent) := by
  rw [List.filter_eq_self]
  intro r hr
  obtain ⟨c, _, rfl⟩ := List.mem_map.mp hr
  simp [saveRow]

theorem foldl_hydrateWrite (now : String) :
    ∀ (rows : List SkillRow) (fs : List FsSkill),
      (rows.map SkillRow.skill_name).Nodup →
      (∀ r ∈ rows, fsLookup fs r.category r.skill_name = Option.none) →
      rows.foldl (fun fs r => fsWrite fs r.skill_name r.category r.code
          r.dependencies r.metadata now) fs
        = fs ++ rows.map (fun r => hydratedEntry r now) := by
  intro rows
  induction rows with
  | nil => intro fs h1 h2; simp
  | cons r rest ih =>
    intro fs h1 h2
    have hr0 : fsLookup fs r.category r.skill_name = Option.none :=
      h2 r (List.mem_cons_self r rest)
    have hw : fsWrite fs r.skill_name r.category r.code r.dependencies r.metadata now
        = fs ++ [hydratedEntry r now] := by
      simp only [fsWrite, hr0, Option.isSome_none, Bool.false_eq_true, if_false]
      rfl
    have hnodup := (List.nodup_cons.mp h1).2
    have hhead := (List.nodup_cons.mp h1).1
    rw [List.foldl_cons, hw, ih (fs ++ [hydratedEntry r now]) hnodup ?fresh]
    · rw [List.map_cons, List.append_assoc, List.singleton_append]
    case fresh =>
      intro d hd
      unfold fsLookup at h2 ⊢
      rw [List.find?_append, h2 d (List.mem_cons_of_mem r hd)]
      have hne : r.skill_name ≠ d.skill_name := by
        intro he
        exact hhead (he ▸ List.mem_map_of_mem SkillRow.skill_name hd)
      simp [hydratedEntry, mkFsSkill_name, hne]

theorem fsLookup_hydrated_mem (now : String) :
    ∀ (rows : List SkillRow) (r : SkillRow),
      (rows.map SkillRow.skill_name).Nodup → r ∈ rows →
      fsLookup (rows.map (fun x => hydratedEntry x now)) r.category r.skill_name
        = some (hydratedEntry r now) := by
  intro rows
  induction rows with
  | nil => intro r _ hr; cases hr
  | cons q rest ih =>
    intro r h1 hr
    have hnodup := (List.nodup_cons.mp h1).2
    have hhead := (List.nodup_cons.mp h1).1
    rcases List.mem_cons.mp hr with rfl | hr2
    · unfold fsLookup
      rw [List.map_cons, List.find?_cons_of_pos]
      simp [hydratedEntry, mkFsSkill_category, mkFsSkill_name]
    · have hne : q.skill_name ≠ r.skill_name := by
        intro he
        exact hhead (he ▸ List.mem_map_of_mem SkillRow.skill_name hr2)
      unfold fsLookup
      rw [List.map_cons, List.find?_cons_of_neg]
      · exact ih r hnodup hr2
      · simp [hydratedEntry, mkFsSkill_category, mkFsSkill_name, hne]

/-- C4: starting from a fresh agent (empty store), after N distinct
completed `save_skill(persist_to_db=True)` calls, hydration rebuilds
the filesystem tree from the store alone: it returns N, the rebuilt
tree holds exactly N skill directories, each directory holds the
originally saved code verbatim, and its sidecar's `dependencies`
field equals the dependencies extracted from that code — in
particular a skill whose code has no dependencies is stored with a
NULL column and hydrated back as the empty list (`normDeps` and
`normMetaDict` send null to empty). -/
theorem c4_hydration_roundtrip (agent : String) (saves : List SaveCall) (now : String)
    (h : (saves.map SaveCall.name).Nodup) :
    (hydrate agent (saves.foldl (applySave agent) ⟨[], []⟩) now).1 = saves.length ∧
    (hydrate agent (saves.foldl (applySave agent) ⟨[], []⟩) now).2.fs.length
      = saves.length ∧
    (∀ c ∈ saves, ∃ e : FsSkill,
      fsLookup (hydrate agent (saves.foldl (applySave agent) ⟨[], []⟩) now).2.fs
          c.category c.name = some e ∧
      e.mainPy = c.code ∧
      lookupDict e.meta "dependencies"
        = some (depsToJVal (extractDependencies c.code))) ∧
    normDeps Option.none = JVal.arr [] ∧
    normMetaDict Option.none = [] := by
  have hdb : (saves.foldl (applySave agent) ⟨[], []⟩).db = saves.map (saveRow agent) := by
    have := foldl_applySave_db agent saves ⟨[], []⟩ h (fun c _ => rfl)
    simpa using this
  have hga : dbGetAllSkills (saves.foldl (applySave agent) ⟨[], []⟩).db agent
      = List.insertionSort rowLE (saves.map (saveRow agent)) := by
    unfold dbGetAllSkills
    rw [hdb, filter_agent_saveRows]
  have hperm : List.Perm (List.insertionSort rowLE (saves.map (saveRow agent)))
      (saves.map (saveRow agent)) :=
    List.perm_insertionSort rowLE (saves.map (saveRow agent))
  have hnames0 : ((saves.map (saveRow agent)).map SkillRow.skill_name).Nodup := by
    rw [List.map_map]
    exact h
  have hnames : ((List.insertionSort rowLE (saves.map (saveRow agent))).map
      SkillRow.skill_name).Nodup :=
    ((hperm.map SkillRow.skill_name).nodup_iff).mpr hnames0
  have hlen : (List.insertionSort rowLE (saves.map (saveRow agent))).length
      = saves.length := by
    rw [hperm.length_eq, List.length_map]
  have hfs : (hydrate agent (saves.foldl (applySave agent) ⟨[], []⟩) now).2.fs
      = (List.insertionSort rowLE (saves.map (saveRow agent))).map
          (fun r => hydratedEntry r now) := by
    show (dbGetAllSkills (saves.foldl (applySave agent) ⟨[], []⟩).db agent).foldl
        (fun fs r => fsWrite fs r.skill_name r.category r.code
          r.dependencies r.metadata now) [] = _
    rw [hga, foldl_hydrateWrite now _ [] hnames (fun r _ => rfl)]
    simp
  refine ⟨?_, ?_, ?_, rfl, rfl⟩
  · show (dbGetAllSkills (saves.foldl (applySave agent) ⟨[], []⟩).db agent).length
        = saves.length
    rw [hga]
    exact hlen
  · rw [hfs, List.length_map]
    exact hlen
  · intro c hc
    refine ⟨hydratedEntry (saveRow agent c) now, ?_, rfl, ?_⟩
    · rw [hfs]
      have hmem : saveRow agent c ∈ List.insertionSort rowLE (saves.map (saveRow agent)) :=
        hperm.mem_iff.mpr (List.mem_map_of_mem (saveRow agent) hc)
      exact fsLookup_hydrated_mem now _ (saveRow agent c) hnames hmem
    · have hstep : lookupDict (hydratedEntry (saveRow agent c) now).meta "dependencies"
          = some (normDeps (storeJson (some (depsToJVal (extractDependencies c.code))))) :=
        rfl
      rw [hstep, normDeps_storeJson_depsToJVal]

/-- Witness for C4 at two concrete saves, one with a dependency-free
code body (stored as NULL, hydrated as empty). -/
theorem c4_hydration_roundtrip_witness :
    (hydrate "a" (([⟨"s1", "c1", "x = 1", [], "t1"⟩,
        ⟨"s2", "c2", "mcp_call(\"g\", \"t\")", [], "t2"⟩] : List SaveCall).foldl
          (applySave "a") ⟨[], []⟩) "t3").1 = 2 ∧
    (hydrate "a" (([⟨"s1", "c1", "x = 1", [], "t1"⟩,
        ⟨"s2", "c2", "mcp_call(\"g\", \"t\")", [], "t2"⟩] : List SaveCall).foldl
          (applySave "a") ⟨[], []⟩) "t3").2.fs.length = 2 :=
  have h := c4_hydration_roundtrip "a"
    [⟨"s1", "c1", "x = 1", [], "t1"⟩,
     ⟨"s2", "c2", "mcp_call(\"g\", \"t\")", [], "t2"⟩] "t3" (by decide)
  ⟨h.1, h.2.1⟩
